import Mathlib

/-!
Verification of the text-normalisation, locator, extraction and output
pipeline of `scrapper.py` (Emlakjet scraper).

The Python source is shallowly embedded:
  * strings are `String` / `List Char`; Python `None` is `Option.none`;
  * Python exceptions that the source catches are modelled with
    `Option` / `Except`;
  * `float` values produced by parsing decimal strings are modelled as
    exact rationals `ℚ` (every decimal literal is exactly representable);
  * Python regular-expression digits `\d` and whitespace `\s` are modelled
    as ASCII digits (`Char.isDigit`) and `Char.isWhitespace`; `str.lower`
    is modelled by `pyLower`, which covers ASCII plus the Turkish capitals
    appearing in the source's keyword sets.
-/

/-! Price parser: `clean_price`, scrapper.py lines 48–65. -/

/-- Model of `re.sub(r"[^\d.,]", "", text)`: keep only digits, `.` and `,`. -/
def stripPrice (s : String) : List Char :=
  s.toList.filter fun c => c.isDigit || c = '.' || c = ','

/-- Python `txt.rfind(c)`: index of the last occurrence, `-1` if absent. -/
def rfindIdx (c : Char) : List Char → Int
  | [] => -1
  | x :: xs =>
    let r := rfindIdx c xs
    if r ≥ 0 then r + 1 else if x = c then 0 else -1

/-- The separator-disambiguation block of `clean_price`:
`replace(".", "").replace(",", ".")` when the last `,` is right of the
last `.`; `replace(",", "")` when both occur the other way round;
`replace(",", ".")` when only `,` occurs; unchanged otherwise. -/
def normalizeSeps (txt : List Char) : List Char :=
  if txt.contains ',' && txt.contains '.' then
    if rfindIdx ',' txt > rfindIdx '.' txt then
      (txt.filter fun c => c != '.').map fun c => if c = ',' then '.' else c
    else
      txt.filter fun c => c != ','
  else if txt.contains ',' then
    txt.map fun c => if c = ',' then '.' else c
  else
    txt

/-- Value of a digit string, most significant first. -/
def digitsToNat (l : List Char) : Nat :=
  l.foldl (fun n c => 10 * n + (c.toNat - 48)) 0

/-- Python `float(txt)` restricted to the strings reachable in
`clean_price` (digits and at most one `.`; no sign, exponent or spaces
can survive the strip): `[digits] ['.' [digits]]` with at least one
digit; the value `intpart.fracpart` is returned exactly as the rational
`(intpart * 10 ^ k + fracpart) / 10 ^ k`.  Any other string raises
`ValueError`, modelled as `none`. -/
def pyFloat? (l : List Char) : Option ℚ :=
  let ip := l.takeWhile Char.isDigit
  match l.dropWhile Char.isDigit with
  | [] => if ip.isEmpty then none else some (digitsToNat ip : ℚ)
  | '.' :: frac =>
    if frac.all Char.isDigit && (!ip.isEmpty || !frac.isEmpty) then
      some (mkRat (digitsToNat (ip ++ frac)) (10 ^ frac.length))
    else none
  | _ => none

/-- Function `clean_price` (scrapper.py lines 48–65).  `if not text` covers both
`None` and the empty string. -/
def clean_price (text : Option String) : Option ℚ :=
  match text with
  | none => none
  | some s => if s = "" then none else pyFloat? (normalizeSeps (stripPrice s))

/-- Modelled from the spec: «if both `,` and `.` appear, the rightmost
one is the decimal separator (remove the other, convert the decimal one
to `.`); if only `,` appears, treat it as decimal separator; if only `.`
or neither, leave as-is». -/
def normalizeSepsSpec (txt : List Char) : List Char :=
  if txt.contains ',' && txt.contains '.' then
    let dec : Char := if rfindIdx ',' txt > rfindIdx '.' txt then ',' else '.'
    let other : Char := if dec = ',' then '.' else ','
    (txt.filter fun c => c != other).map fun c => if c = dec then '.' else c
  else if txt.contains ',' then
    txt.map fun c => if c = ',' then '.' else c
  else
    txt

/-- Modelled from the spec: strip to digits/`.`/`,`, disambiguate the
separators, parse as a float, null on empty/None/unparseable input. -/
def clean_price_spec (text : Option String) : Option ℚ :=
  match text with
  | none => none
  | some s => if s = "" then none else pyFloat? (normalizeSepsSpec (stripPrice s))

/-! Detail extractor: `extract_property_details`, scrapper.py lines 68–100. -/

/-- Python `str.lower` for one character, covering ASCII and the Turkish
capitals that occur in the source's keyword sets; other characters are
left unchanged. -/
def pyLower (c : Char) : Char :=
  if c = 'Ç' then 'ç'
  else if c = 'Ş' then 'ş'
  else if c = 'Ğ' then 'ğ'
  else if c = 'Ü' then 'ü'
  else if c = 'Ö' then 'ö'
  else if c = 'İ' then 'i'
  else if c = 'I' then 'ı'
  else c.toLower

/-- Lowercased text `text.lower()` as a character list. -/
def pyLowerStr (s : String) : List Char :=
  s.toList.map pyLower

/-- Python substring test `pat in l`. -/
def containsSub (pat : List Char) : List Char → Bool
  | [] => pat.isPrefixOf []
  | c :: rest => pat.isPrefixOf (c :: rest) || containsSub pat rest

/-- One attempt of `(\d{2,4})\s*m[²2]` at the head of `l` with a fixed
digit count `k`: `k` digits, then whitespace, then `m²` or `m2`. -/
def tryArea (k : Nat) (l : List Char) : Option (List Char) :=
  let ds := l.take k
  let rest := (l.drop k).dropWhile Char.isWhitespace
  if ds.length == k && ds.all Char.isDigit
      && (rest.take 2 == ['m', '²'] || rest.take 2 == ['m', '2']) then
    some ds
  else none

/-- Match of `(\d{2,4})\s*m[²2]` anchored at the head of `l`; the greedy
`{2,4}` tries four digits first, then three, then two. -/
def matchAreaAt (l : List Char) : Option (List Char) :=
  match tryArea 4 l with
  | some ds => some ds
  | none =>
    match tryArea 3 l with
    | some ds => some ds
    | none => tryArea 2 l

/-- Search `re.search(r"(\d{2,4})\s*m[²2]", l)`: leftmost match, returning the
captured digit group. -/
def searchArea : List Char → Option (List Char)
  | [] => none
  | c :: rest =>
    match matchAreaAt (c :: rest) with
    | some ds => some ds
    | none => searchArea rest

/-- Match of `(\d+)\s*\.?\s*kat` anchored at the head of `l`.  `\d+` is
greedy, and backtracking it can never help (the character after a
shorter digit prefix is a digit, which neither `\s*`, `\.?` nor `kat`
accepts), so the maximal digit run is taken. -/
def matchFloorAt (l : List Char) : Option (List Char) :=
  let ds := l.takeWhile Char.isDigit
  if ds.isEmpty then none
  else
    let rest := (l.drop ds.length).dropWhile Char.isWhitespace
    let rest2 := match rest with
      | '.' :: r => r.dropWhile Char.isWhitespace
      | _ => rest
    if rest2.take 3 = ['k', 'a', 't'] then some ds else none

/-- Search `re.search(r"(\d+)\s*\.?\s*kat", l)`: leftmost match, returning the
captured digit group. -/
def searchFloor : List Char → Option (List Char)
  | [] => none
  | c :: rest =>
    match matchFloorAt (c :: rest) with
    | some ds => some ds
    | none => searchFloor rest

/-- Match of `(\d+)\s*\+\s*(\d+)` anchored at the head of `l`, returning
both captured digit groups. -/
def matchRoomAt (l : List Char) : Option (List Char × List Char) :=
  let ds := l.takeWhile Char.isDigit
  if ds.isEmpty then none
  else
    match (l.drop ds.length).dropWhile Char.isWhitespace with
    | '+' :: r =>
      let ds2 := (r.dropWhile Char.isWhitespace).takeWhile Char.isDigit
      if ds2.isEmpty then none else some (ds, ds2)
    | _ => none

/-- Search `re.search(r"(\d+)\s*\+\s*(\d+)", l)`: leftmost match. -/
def searchRoom : List Char → Option (List Char × List Char)
  | [] => none
  | c :: rest =>
    match matchRoomAt (c :: rest) with
    | some p => some p
    | none => searchRoom rest

/-- The dictionary returned by `extract_property_details`. -/
structure Details where
  Oda_Sayisi : Option String
  Kat : Option String
  Brut_Alan_m2 : Option String
deriving DecidableEq, Repr

/-- Function `extract_property_details` (scrapper.py lines 68–100): lowercase the
text, then extract the room pattern, the area pattern, and the floor
(regex first, then the ground-floor keywords `zemin`/`giriş`, then the
rooftop keywords `çatı`/`tavan`). -/
def extract_property_details (text : String) : Details :=
  if text = "" then ⟨none, none, none⟩
  else
    let tl := pyLowerStr text
    { Oda_Sayisi := (searchRoom tl).map fun p => String.mk (p.1 ++ '+' :: p.2)
      Kat :=
        match searchFloor tl with
        | some ds => some (String.mk ds)
        | none =>
          if containsSub "zemin".toList tl || containsSub "giriş".toList tl then
            some "Zemin"
          else if containsSub "çatı".toList tl || containsSub "tavan".toList tl then
            some "Çatı"
          else none
      Brut_Alan_m2 := (searchArea tl).map String.mk }

/-! Resilient locator: `EmlakjetScraper.find_selector`, scrapper.py
lines 163–175.  `driver.find_elements` either returns a (possibly
empty) element list or raises; the raise is modelled as `Except.error`
and is swallowed by the `except: continue`. -/

def find_selector {σ β ε : Type} (lookup : σ → Except ε (List β)) :
    List σ → Option σ × List β
  | [] => (none, [])
  | s :: rest =>
    match lookup s with
    | Except.error _ => find_selector lookup rest
    | Except.ok es => if es.isEmpty then find_selector lookup rest else (some s, es)

/-- Concrete candidate table: candidate 0 matches nothing, candidate 1
matches two elements, candidate 2 matches five, anything else raises. -/
def lookupEx : Nat → Except Unit (List Nat)
  | 0 => Except.ok []
  | 1 => Except.ok [10, 20]
  | 2 => Except.ok [1, 2, 3, 4, 5]
  | _ => Except.error ()

/-! Record extraction: `EmlakjetScraper.scrape_page`, scrapper.py
lines 275–395.  A sub-element carries its text and the texts of its
`li` children; a card provides a per-CSS-selector `find_element` lookup
(raising = `Except.error`), its full text, and the `href` of its first
anchor (`Except.error` when no anchor exists, `none` when
`get_attribute` returns `None`). -/

structure Elem where
  text : String
  liTexts : List String
deriving DecidableEq

structure Card where
  find : String → Except Unit Elem
  text : String
  anchorHref : Except Unit (Option String)

/-- The per-record dictionary appended to `self.data`. -/
structure Record where
  Tarih : String
  Fiyat : String
  Fiyat_Sayisal : Option ℚ
  Konum : String
  Semt : String
  Mahalle : String
  Oda_Sayisi : Option String
  Kat : Option String
  Brut_Alan_m2 : Option String
  Detaylar : String
  URL : String
deriving DecidableEq

def price_selectors : List String :=
  ["[data-testid=\x27price\x27]", ".price", "[class*=\x27price\x27]", "[class*=\x27Price\x27]"]

def loc_selectors : List String :=
  ["[data-testid=\x27location\x27]", ".location", "[class*=\x27location\x27]",
   "[class*=\x27address\x27]"]

def details_selectors : List String :=
  ["[data-testid=\x27property-features\x27]", "ul", "[class*=\x27features\x27]",
   "[class*=\x27details\x27]"]

/-- Python `str.strip()`: remove whitespace from both ends. -/
def pyStrip (s : String) : String :=
  String.mk (((s.toList.dropWhile Char.isWhitespace).reverse.dropWhile
    Char.isWhitespace).reverse)

/-- Python `str.split(sep)` for a one-character separator, on character
lists (e.g. `"a,".split(",") = ["a", ""]`, `"".split(",") = [""]`). -/
def splitOnChar (sep : Char) (l : List Char) : List (List Char) :=
  l.foldr
    (fun c acc =>
      match acc with
      | cur :: rest => if c = sep then [] :: cur :: rest else (c :: cur) :: rest
      | [] => [[c]])
    [[]]

/-- The shared shape of the price and location loops: find the first
selector whose element has non-empty stripped text and return that
stripped text; a raising lookup is skipped (`except: continue`). -/
def findTextLoop (card : Card) : List String → Option String
  | [] => none
  | sel :: rest =>
    match card.find sel with
    | Except.error _ => findTextLoop card rest
    | Except.ok el =>
      if pyStrip el.text = "" then findTextLoop card rest else some (pyStrip el.text)

/-- The body of the details loop once an element with non-empty stripped
text is found: join the stripped non-empty `li` texts with `" | "`, or
fall back to the element's stripped text when it has no `li` children. -/
def detailsTextOf (el : Elem) : String :=
  if el.liTexts.isEmpty then pyStrip el.text
  else String.intercalate " | " ((el.liTexts.map pyStrip).filter fun t => t != "")

/-- The details loop (scrapper.py lines 327–342). -/
def findDetailsLoop (card : Card) : List String → Option String
  | [] => none
  | sel :: rest =>
    match card.find sel with
    | Except.error _ => findDetailsLoop card rest
    | Except.ok el =>
      if pyStrip el.text = "" then findDetailsLoop card rest else some (detailsTextOf el)

/-- District/neighbourhood decomposition (scrapper.py lines 362–370). -/
def splitLocation (location : String) : String × String :=
  if location = "" then ("", "")
  else
    match (splitOnChar ',' location.toList).map fun p => pyStrip (String.mk p) with
    | p0 :: p1 :: _ => (p0, p1)
    | [p0] => (p0, "")
    | [] => ("", "")

/-- Assembly of the record for one card once its price text is in hand
(scrapper.py lines 298–384). -/
def assembleRecord (now : String) (card : Card) (price_text : String) : Record :=
  let location := (findTextLoop card loc_selectors).getD ""
  let dt0 := (findDetailsLoop card details_selectors).getD ""
  let details_text := if dt0 = "" then card.text else dt0
  let pd := extract_property_details details_text
  let url_link :=
    match card.anchorHref with
    | Except.error _ => ""
    | Except.ok h => h.getD ""
  let sm := splitLocation location
  { Tarih := now
    Fiyat := price_text
    Fiyat_Sayisal := clean_price (some price_text)
    Konum := location
    Semt := sm.1
    Mahalle := sm.2
    Oda_Sayisi := pd.Oda_Sayisi
    Kat := pd.Kat
    Brut_Alan_m2 := pd.Brut_Alan_m2
    Detaylar := details_text
    URL := url_link }

/-- Processing of one card: skipped (`continue`, no record) when no
price selector yields non-empty text, emitted otherwise. -/
def processCard (now : String) (card : Card) : Option Record :=
  (findTextLoop card price_selectors).map (assembleRecord now card)

/-- The `for i, card in enumerate(cards)` loop: appends each emitted
record to the accumulator `self.data` and counts emissions. -/
def scrape_cards (now : String) : List Card → List Record → List Record × Nat
  | [], data => (data, 0)
  | c :: rest, data =>
    match processCard now c with
    | none => scrape_cards now rest data
    | some r =>
      let p := scrape_cards now rest (data ++ [r])
      (p.1, p.2 + 1)

/-! Output pipeline: `EmlakjetScraper.run`, scrapper.py lines
429–460, and process exit, lines 534–546. -/

/-- Model of `pd.to_numeric(•, errors="coerce")` on the nullable area strings:
`None` and unparseable text become NaN, modelled as `none`. -/
def to_numeric (s : Option String) : Option ℚ :=
  s.bind fun t => pyFloat? t.toList

/-- Round-half-to-even of the rational `n / d` (`d > 0`), the tie rule
of Python's `round`. -/
def roundHalfEvenInt (n : ℤ) (d : ℕ) : ℤ :=
  let q := Int.fdiv n d
  let r := n - q * d
  if 2 * r < d then q
  else if (d : ℤ) < 2 * r then q + 1
  else if q % 2 = 0 then q else q + 1

/-- Python `round(x, 2)`, modelled exactly on rationals (`round` on
floats rounds the nearest binary double; on the exact values reachable
here the two agree away from ties). -/
def pyRound2 (x : ℚ) : ℚ :=
  mkRat (roundHalfEvenInt (x.num * 100) x.den) 100

/-- Exact rational division expressed on numerators and denominators
(an executable form of `p / a`; see `ratDiv_eq_div`). -/
def ratDiv (p a : ℚ) : ℚ :=
  Rat.divInt (p.num * a.den) (p.den * a.num)

/-- The `Fiyat_Per_m2` lambda (scrapper.py lines 437–442):
`round(price / area, 2)` when both are non-null and `area > 0`, else
`None`. -/
def fiyat_per_m2 (price : Option ℚ) (area : Option ℚ) : Option ℚ :=
  match price, area with
  | some p, some a => if 0 < a then some (pyRound2 (ratDiv p a)) else none
  | _, _ => none

/-- One output row: the scraped record plus the two derived columns. -/
structure OutRow where
  base : Record
  Brut_Alan_m2_Numeric : Option ℚ
  Fiyat_Per_m2 : Option ℚ
deriving DecidableEq

/-- Lines 434–442: add the numeric-area and price-per-area columns. -/
def addDerived (r : Record) : OutRow :=
  let areaNum := to_numeric r.Brut_Alan_m2
  ⟨r, areaNum, fiyat_per_m2 r.Fiyat_Sayisal areaNum⟩

/-- The `drop_duplicates` subset key: `(Fiyat, Konum, Oda_Sayisi)`. -/
def outKey (r : OutRow) : String × String × Option String :=
  (r.base.Fiyat, r.base.Konum, r.base.Oda_Sayisi)

/-- Model of `df.drop_duplicates(subset, keep="first")`: scan left to right,
keeping a row iff its key has not been seen yet. -/
def dropDupAux {α κ : Type} [DecidableEq κ] (key : α → κ) (seen : List κ) :
    List α → List α
  | [] => []
  | r :: rs =>
    if key r ∈ seen then dropDupAux key seen rs
    else r :: dropDupAux key (key r :: seen) rs

def drop_duplicates {α κ : Type} [DecidableEq κ] (key : α → κ) (l : List α) : List α :=
  dropDupAux key [] l

/-- Modelled from the spec: «deduplicate … keeping first occurrence»:
keep each row and drop every later row carrying the same key. -/
def keepFirstOccurrences {α κ : Type} [DecidableEq κ] (key : α → κ) : List α → List α
  | [] => []
  | r :: rs =>
    r :: keepFirstOccurrences key (rs.filter fun x => !decide (key x = key r))
termination_by l => l.length
decreasing_by
  simp only [List.length_cons]
  exact Nat.lt_succ_of_le (List.length_filter_le _ _)

/-- The rows written on normal completion with non-empty data:
derived columns, then deduplication (the later column reordering and
CSV encoding do not change the row set). -/
def run_rows (data : List Record) : List OutRow :=
  drop_duplicates outKey (data.map addDerived)

/-- How a run ends: normal completion of `run()`, a `KeyboardInterrupt`
propagating out of `run()`, or any other exception; `data` is the
accumulator at that moment. -/
inductive RunOutcome where
  | normal (data : List Record)
  | interrupted (data : List Record)
  | fatal (msg : String)

/-- Observable result of the process: the exit code, the rows of the
timestamped output file (`none` when none is written), the rows of the
distinct `emlakjet_partial_*` file, and whether a traceback is
printed. -/
structure MainResult where
  exitCode : Nat
  outputRows : Option (List OutRow)
  interruptedRows : Option (List Record)
  printedTrace : Bool
deriving DecidableEq

/-- The `__main__` block (scrapper.py lines 534–546).  `run()` writes
the output file only when `self.data` is non-empty; both `except`
handlers swallow their exception, the script then falls off its end,
and no `sys.exit` appears anywhere in the file, so the interpreter
exits with code 0 in all three cases. -/
def main_result : RunOutcome → MainResult
  | RunOutcome.normal data =>
    ⟨0, if data.isEmpty then none else some (run_rows data), none, false⟩
  | RunOutcome.interrupted data =>
    ⟨0, none, if data.isEmpty then none else some data, false⟩
  | RunOutcome.fatal _ => ⟨0, none, none, true⟩

/-! Concrete witness data. -/

/-- A card on which every lookup raises: it has no price sub-element. -/
def cardNoPrice : Card :=
  ⟨fun _ => Except.error (), "fiyatı olmayan ilan", Except.error ()⟩

/-- The price sub-element used by the concrete witnesses. -/
def elemPrice : Elem := ⟨" 2.500 TL ", []⟩

/-- A card whose second price candidate matches `elemPrice`. -/
def cardWithPrice : Card :=
  ⟨fun sel => if sel = ".price" then Except.ok elemPrice else Except.error (),
   "3+1 120 m2 5. Kat", Except.ok (some "https://example.com/ilan/1")⟩

/-- The record the card loop emits for `cardWithPrice`. -/
def demoRec : Record := assembleRecord "2024-01-01 00:00:00" cardWithPrice "2.500 TL"

/-- A fixed output row, for the deduplication witness. -/
def rowA : OutRow :=
  ⟨⟨"2024-01-01 00:00:00", "2.500 TL", some (mkRat 25 10), "Kadıköy, Moda", "Kadıköy",
    "Moda", some "3+1", some "5", some "120", "3+1 | 120 m2 | 5. Kat",
    "https://example.com/ilan/1"⟩, some 120, none⟩

/-- A second output row sharing the key of `rowA`. -/
def rowB : OutRow :=
  ⟨⟨"2024-01-01 00:05:00", "2.500 TL", some (mkRat 25 10), "Kadıköy, Moda", "Kadıköy",
    "Moda", some "3+1", some "2", some "95", "3+1 | 95 m2 | 2. Kat",
    "https://example.com/ilan/2"⟩, some 95, none⟩

/-- A fixed record for the C8 counterexample. -/
def rec0 : Record :=
  ⟨"2024-01-01 00:00:00", "2.500 TL", some (mkRat 25 10), "Kadıköy, Moda", "Kadıköy",
   "Moda", some "3+1", some "5", some "120", "3+1 | 120 m2 | 5. Kat",
   "https://example.com/ilan/1"⟩

/-! Helper lemmas. -/

theorem map_if_eq_self (l : List Char) :
    (l.map fun c => if c = '.' then '.' else c) = l := by
  have h : (fun c : Char => if c = '.' then '.' else c) = id := by
    funext c
    by_cases hc : c = '.' <;> simp [hc]
  rw [h, List.map_id]

theorem normalizeSeps_eq_spec (txt : List Char) :
    normalizeSeps txt = normalizeSepsSpec txt := by
  unfold normalizeSeps normalizeSepsSpec
  by_cases hboth : (txt.contains ',' && txt.contains '.') = true
  · rw [if_pos hboth, if_pos hboth]
    by_cases hcmp : rfindIdx ',' txt > rfindIdx '.' txt
    · rw [if_pos hcmp]
      simp only [if_pos hcmp]
      rfl
    · rw [if_neg hcmp]
      simp only [if_neg hcmp]
      have h27 : (if ('.' : Char) = ',' then '.' else ',') = ',' := rfl
      rw [h27, map_if_eq_self]
  · rw [if_neg hboth, if_neg hboth]

theorem ratDiv_eq_div (p a : ℚ) : ratDiv p a = p / a := by
  rcases eq_or_ne a 0 with rfl | ha
  · simp [ratDiv]
  · have hpd : ((p.den : ℚ)) ≠ 0 := by exact_mod_cast p.den_ne_zero
    have had : ((a.den : ℚ)) ≠ 0 := by exact_mod_cast a.den_ne_zero
    have han : ((a.num : ℚ)) ≠ 0 := by exact_mod_cast Rat.num_ne_zero.mpr ha
    have hp := Rat.num_div_den p
    have haa := Rat.num_div_den a
    rw [ratDiv, Rat.divInt_eq_div]
    push_cast
    conv_rhs => rw [← hp, ← haa]
    field_simp

theorem tryArea_some (k : Nat) (l ds : List Char) (h : tryArea k l = some ds) :
    ds.length = k ∧ ds.all Char.isDigit = true := by
  unfold tryArea at h
  simp only at h
  split at h
  · rename_i hc
    injection h with h
    subst h
    simp only [Bool.and_eq_true, beq_iff_eq] at hc
    exact ⟨hc.1.1, hc.1.2⟩
  · exact absurd h (by simp)

theorem matchAreaAt_some (l ds : List Char) (h : matchAreaAt l = some ds) :
    (ds.length = 2 ∨ ds.length = 3 ∨ ds.length = 4) ∧ ds.all Char.isDigit = true := by
  unfold matchAreaAt at h
  rcases h4 : tryArea 4 l with _ | ds4
  · rw [h4] at h
    rcases h3 : tryArea 3 l with _ | ds3
    · rw [h3] at h
      obtain ⟨hl, hd⟩ := tryArea_some 2 l ds h
      exact ⟨Or.inl hl, hd⟩
    · rw [h3] at h
      injection h with h
      subst h
      obtain ⟨hl, hd⟩ := tryArea_some 3 l ds3 h3
      exact ⟨Or.inr (Or.inl hl), hd⟩
  · rw [h4] at h
    injection h with h
    subst h
    obtain ⟨hl, hd⟩ := tryArea_some 4 l ds4 h4
    exact ⟨Or.inr (Or.inr hl), hd⟩

theorem searchArea_some (l ds : List Char) (h : searchArea l = some ds) :
    (ds.length = 2 ∨ ds.length = 3 ∨ ds.length = 4) ∧ ds.all Char.isDigit = true := by
  induction l with
  | nil => exact absurd h (by simp [searchArea])
  | cons c rest ih =>
    rw [searchArea] at h
    rcases hm : matchAreaAt (c :: rest) with _ | ds'
    · rw [hm] at h
      exact ih h
    · rw [hm] at h
      injection h with h
      subst h
      exact matchAreaAt_some _ _ hm

/-! Claim theorems. -/

/-- C1: the price parser `clean_price` strips everything but digits, `.` and `,`,
disambiguates the separators exactly as the spec describes (rightmost of
the two is the decimal separator; a lone `,` is decimal; a lone `.` or
nothing is left as-is), parses the result as a float, and returns null
on `None`, empty, or unparseable input.  The value `mkRat 123456 100`
is `1234.56`. -/
theorem clean_price_correct :
    (∀ t : Option String, clean_price t = clean_price_spec t) ∧
    clean_price (some "1.234,56 TL") = some (mkRat 123456 100) ∧
    clean_price (some "1,234.56") = some (mkRat 123456 100) ∧
    clean_price (some "2500") = some 2500 ∧
    clean_price none = none ∧
    clean_price (some "") = none ∧
    (∀ s : String, pyFloat? (normalizeSeps (stripPrice s)) = none →
      clean_price (some s) = none) := by
  refine ⟨?_, by decide, by decide, by decide, rfl, by decide, ?_⟩
  · intro t
    rcases t with _ | s
    · rfl
    · by_cases hs : s = ""
      · simp [clean_price, clean_price_spec, hs]
      · simp [clean_price, clean_price_spec, hs, normalizeSeps_eq_spec]
  · intro s h
    by_cases hs : s = ""
    · simp [clean_price, hs]
    · simp [clean_price, hs, h]

theorem clean_price_correct_witness : clean_price (some "fiyat yok") = none :=
  clean_price_correct.2.2.2.2.2.2 "fiyat yok" (by decide)

/-- C2 counterexample: the claim says a 5-digit number before the unit
yields null, but the area regex has no left boundary, so on
`"12345 m2"` it matches the last four digits and returns `"2345"`. -/
theorem area_five_digit_cex :
    (extract_property_details "12345 m2").Brut_Alan_m2 = some "2345" ∧
    (extract_property_details "12345 m2").Brut_Alan_m2 ≠ none := by decide

/-- C2 amended: the area parser only ever returns an all-digit string of
length 2–4 (so the 1-digit lower bound is strict), and `"120 m²"`,
`"85m2"` parse as claimed; but on a 5-digit number it returns the last
four digits instead of null. -/
theorem area_bounds_amended :
    (∀ (t : String) (d : String), (extract_property_details t).Brut_Alan_m2 = some d →
      (d.length = 2 ∨ d.length = 3 ∨ d.length = 4) ∧ d.toList.all Char.isDigit = true) ∧
    (extract_property_details "120 m²").Brut_Alan_m2 = some "120" ∧
    (extract_property_details "85m2").Brut_Alan_m2 = some "85" ∧
    (extract_property_details "5 m2").Brut_Alan_m2 = none ∧
    (extract_property_details "12345 m2").Brut_Alan_m2 = some "2345" := by
  refine ⟨?_, by decide, by decide, by decide, by decide⟩
  intro t d h
  by_cases ht : t = ""
  · rw [ht] at h
    rw [show (extract_property_details "").Brut_Alan_m2 = none from rfl] at h
    exact Option.noConfusion h
  · simp only [extract_property_details, if_neg ht] at h
    obtain ⟨ds, hds, rfl⟩ := Option.map_eq_some'.mp h
    obtain ⟨hlen, hdig⟩ := searchArea_some _ _ hds
    exact ⟨hlen, hdig⟩

theorem area_bounds_amended_witness :
    ("2345".length = 2 ∨ "2345".length = 3 ∨ "2345".length = 4) ∧
      "2345".toList.all Char.isDigit = true :=
  area_bounds_amended.1 "12345 m2" "2345" (by decide)

/-- C9: the normaliser functions are total: every input yields a defined
output (`none` or a value), empty/None inputs yield null, and a string
whose stripped form fails the float grammar makes `clean_price` return
null rather than fail. -/
theorem parsers_total :
    (∀ t : Option String, clean_price t = none ∨ ∃ q, clean_price t = some q) ∧
    (∀ s : String, (extract_property_details s).Oda_Sayisi = none ∨
      ∃ v, (extract_property_details s).Oda_Sayisi = some v) ∧
    (∀ s : String, (extract_property_details s).Kat = none ∨
      ∃ v, (extract_property_details s).Kat = some v) ∧
    (∀ s : String, (extract_property_details s).Brut_Alan_m2 = none ∨
      ∃ v, (extract_property_details s).Brut_Alan_m2 = some v) ∧
    (∀ s : String, pyFloat? (normalizeSeps (stripPrice s)) = none →
      clean_price (some s) = none) ∧
    clean_price none = none ∧
    clean_price (some "") = none ∧
    extract_property_details "" = ⟨none, none, none⟩ := by
  refine ⟨?_, ?_, ?_, ?_, ?_, rfl, by decide, by decide⟩
  · intro t
    rcases h : clean_price t with _ | q
    · exact Or.inl rfl
    · exact Or.inr ⟨q, rfl⟩
  · intro s
    rcases h : (extract_property_details s).Oda_Sayisi with _ | v
    · exact Or.inl rfl
    · exact Or.inr ⟨v, rfl⟩
  · intro s
    rcases h : (extract_property_details s).Kat with _ | v
    · exact Or.inl rfl
    · exact Or.inr ⟨v, rfl⟩
  · intro s
    rcases h : (extract_property_details s).Brut_Alan_m2 with _ | v
    · exact Or.inl rfl
    · exact Or.inr ⟨v, rfl⟩
  · intro s h
    by_cases hs : s = ""
    · simp [clean_price, hs]
    · simp [clean_price, hs, h]

theorem parsers_total_witness : clean_price (some "m² başına") = none :=
  parsers_total.2.2.2.2.1 "m² başına" (by decide)

/-- C3: the floor parser applies the priority order of the source: the
`(\d+)\s*\.?\s*kat` regex wins and returns its digit string; otherwise a
ground-floor keyword (`zemin`/`giriş`) gives the label `"Zemin"`;
otherwise a rooftop keyword (`çatı`/`tavan`) gives `"Çatı"`; otherwise
the result is null. -/
theorem floor_priority :
    (∀ (t : String) (d : List Char), searchFloor (pyLowerStr t) = some d →
      (extract_property_details t).Kat = some (String.mk d)) ∧
    (∀ t : String, searchFloor (pyLowerStr t) = none →
      (containsSub "zemin".toList (pyLowerStr t)
        || containsSub "giriş".toList (pyLowerStr t)) = true →
      (extract_property_details t).Kat = some "Zemin") ∧
    (∀ t : String, searchFloor (pyLowerStr t) = none →
      (containsSub "zemin".toList (pyLowerStr t)
        || containsSub "giriş".toList (pyLowerStr t)) = false →
      (containsSub "çatı".toList (pyLowerStr t)
        || containsSub "tavan".toList (pyLowerStr t)) = true →
      (extract_property_details t).Kat = some "Çatı") ∧
    (∀ t : String, searchFloor (pyLowerStr t) = none →
      (containsSub "zemin".toList (pyLowerStr t)
        || containsSub "giriş".toList (pyLowerStr t)) = false →
      (containsSub "çatı".toList (pyLowerStr t)
        || containsSub "tavan".toList (pyLowerStr t)) = false →
      (extract_property_details t).Kat = none) ∧
    (extract_property_details "5. Kat").Kat = some "5" ∧
    (extract_property_details "Zemin Kat").Kat = some "Zemin" ∧
    (extract_property_details "Çatı Dairesi").Kat = some "Çatı" ∧
    (extract_property_details "merhaba").Kat = none := by
  refine ⟨?_, ?_, ?_, ?_, by decide, by decide, by decide, by decide⟩
  · intro t d h
    by_cases ht : t = ""
    · rw [ht] at h
      rw [show searchFloor (pyLowerStr "") = none from rfl] at h
      exact Option.noConfusion h
    · simp only [extract_property_details, if_neg ht, h]
  · intro t h1 h2
    by_cases ht : t = ""
    · rw [ht] at h2
      rw [show (containsSub "zemin".toList (pyLowerStr "")
        || containsSub "giriş".toList (pyLowerStr "")) = false from rfl] at h2
      exact Bool.noConfusion h2
    · simp only [extract_property_details, if_neg ht, h1, h2, if_true]
  · intro t h1 h2 h3
    by_cases ht : t = ""
    · rw [ht] at h3
      rw [show (containsSub "çatı".toList (pyLowerStr "")
        || containsSub "tavan".toList (pyLowerStr "")) = false from rfl] at h3
      exact Bool.noConfusion h3
    · simp only [extract_property_details, if_neg ht, h1, h2, h3,
        Bool.false_eq_true, if_false, if_true]
  · intro t h1 h2 h3
    by_cases ht : t = ""
    · rw [ht]
      rfl
    · simp only [extract_property_details, if_neg ht, h1, h2, h3,
        Bool.false_eq_true, if_false]

theorem floor_priority_witness : (extract_property_details "giriş katı").Kat = some "Zemin" :=
  floor_priority.2.1 "giriş katı" (by decide) (by decide)

/-- C4: the locator `find_selector` skips a candidate that raises or matches nothing,
returns the first candidate with at least one element together with all
its elements (never a later, larger match), and returns the empty result
without raising when every candidate fails; on the concrete table
`[0 ↦ 0 matches, 1 ↦ 2 matches, 2 ↦ 5 matches]` it returns candidate 1
with its 2 elements. -/
theorem find_selector_first_match :
    (∀ {σ β ε : Type} (lookup : σ → Except ε (List β)) (s : σ) (rest : List σ),
      (lookup s = Except.ok [] ∨ ∃ e, lookup s = Except.error e) →
      find_selector lookup (s :: rest) = find_selector lookup rest) ∧
    (∀ {σ β ε : Type} (lookup : σ → Except ε (List β)) (s : σ) (rest : List σ)
      (es : List β), lookup s = Except.ok es → es ≠ [] →
      find_selector lookup (s :: rest) = (some s, es)) ∧
    (∀ {σ β ε : Type} (lookup : σ → Except ε (List β)) (sels : List σ),
      (∀ s ∈ sels, lookup s = Except.ok [] ∨ ∃ e, lookup s = Except.error e) →
      find_selector lookup sels = (none, [])) ∧
    find_selector lookupEx [0, 1, 2] = (some 1, [10, 20]) := by
  have skip : ∀ {σ β ε : Type} (lookup : σ → Except ε (List β)) (s : σ)
      (rest : List σ), (lookup s = Except.ok [] ∨ ∃ e, lookup s = Except.error e) →
      find_selector lookup (s :: rest) = find_selector lookup rest := by
    intro σ β ε lookup s rest h
    rcases h with h | ⟨e, h⟩
    · simp [find_selector, h]
    · simp [find_selector, h]
  refine ⟨skip, ?_, ?_, by decide⟩
  · intro σ β ε lookup s rest es h hne
    obtain ⟨b, bs, rfl⟩ := List.exists_cons_of_ne_nil hne
    simp [find_selector, h]
  · intro σ β ε lookup sels h
    induction sels with
    | nil => rfl
    | cons s rest ih =>
      rw [skip lookup s rest (h s (List.mem_cons_self s rest))]
      exact ih fun x hx => h x (List.mem_cons_of_mem s hx)

theorem find_selector_first_match_witness :
    find_selector lookupEx [0, 9, 0] = (none, []) ∧
      find_selector lookupEx [2, 1] = (some 2, [1, 2, 3, 4, 5]) := by
  constructor
  · refine find_selector_first_match.2.2.1 lookupEx [0, 9, 0] ?_
    intro s hs
    rcases List.mem_cons.mp hs with rfl | hs
    · exact Or.inl rfl
    rcases List.mem_cons.mp hs with rfl | hs
    · exact Or.inr ⟨(), rfl⟩
    rcases List.mem_cons.mp hs with rfl | hs
    · exact Or.inl rfl
    · exact absurd hs (List.not_mem_nil s)
  · exact find_selector_first_match.2.1 lookupEx 2 [1] [1, 2, 3, 4, 5] rfl (by decide)

theorem scrape_cards_fst (now : String) (cards : List Card) :
    ∀ data : List Record,
      (scrape_cards now cards data).1 = data ++ cards.filterMap (processCard now) := by
  induction cards with
  | nil => intro data; simp [scrape_cards]
  | cons c rest ih =>
    intro data
    rcases hc : processCard now c with _ | r
    · simp [scrape_cards, hc, ih, List.filterMap_cons]
    · simp [scrape_cards, hc, ih, List.filterMap_cons]

theorem findTextLoop_some (card : Card) (sels : List String) :
    ∀ t : String, findTextLoop card sels = some t →
      t ≠ "" ∧ ∃ sel ∈ sels, ∃ el, card.find sel = Except.ok el ∧ t = pyStrip el.text := by
  induction sels with
  | nil => intro t h; exact absurd h (by simp [findTextLoop])
  | cons sel rest ih =>
    intro t h
    rw [findTextLoop] at h
    rcases hf : card.find sel with e | el
    · rw [hf] at h
      dsimp only at h
      obtain ⟨hne, sel', hmem, el, hok, ht⟩ := ih t h
      exact ⟨hne, sel', List.mem_cons_of_mem _ hmem, el, hok, ht⟩
    · rw [hf] at h
      dsimp only at h
      by_cases he : pyStrip el.text = ""
      · rw [if_pos he] at h
        obtain ⟨hne, sel', hmem, el', hok, ht⟩ := ih t h
        exact ⟨hne, sel', List.mem_cons_of_mem _ hmem, el', hok, ht⟩
      · rw [if_neg he] at h
        injection h with h
        subst h
        exact ⟨he, sel, List.mem_cons_self sel rest, el, hf, rfl⟩

/-- C5: a listing element whose price lookup yields no non-empty text
under any price candidate is skipped: `processCard` emits nothing for
it, and the run over any card list containing it leaves the accumulator
and the emission count exactly as if the element were absent. -/
theorem no_price_skipped :
    ∀ (now : String) (card : Card), findTextLoop card price_selectors = none →
      processCard now card = none ∧
      ∀ (pre post : List Card) (data : List Record),
        scrape_cards now (pre ++ card :: post) data =
          scrape_cards now (pre ++ post) data := by
  intro now card h
  have hpc : processCard now card = none := by simp [processCard, h]
  refine ⟨hpc, ?_⟩
  intro pre post data
  induction pre generalizing data with
  | nil => simp [scrape_cards, hpc]
  | cons c pre ih =>
    rcases hc : processCard now c with _ | r
    · simp only [List.cons_append, scrape_cards, hc]
      exact ih data
    · simp only [List.cons_append, scrape_cards, hc, List.append_eq]
      rw [ih (data ++ [r])]

theorem no_price_skipped_witness :
    processCard "2024-01-01 00:00:00" cardNoPrice = none ∧
      scrape_cards "2024-01-01 00:00:00" ([] ++ cardNoPrice :: []) [] =
        scrape_cards "2024-01-01 00:00:00" ([] ++ []) [] := by
  have h := no_price_skipped "2024-01-01 00:00:00" cardNoPrice rfl
  exact ⟨h.1, h.2 [] [] []⟩

/-- C10: every record the card loop ever appends to the accumulator
carries as its `Fiyat` field the stripped, non-empty text of the price
sub-element found by the matched price candidate. -/
theorem accumulator_price_invariant :
    ∀ (now : String) (cards : List Card) (data : List Record) (r : Record),
      r ∈ (scrape_cards now cards data).1 →
      r ∈ data ∨
        (r.Fiyat ≠ "" ∧ ∃ card ∈ cards, ∃ sel ∈ price_selectors, ∃ el,
          card.find sel = Except.ok el ∧ r.Fiyat = pyStrip el.text) := by
  intro now cards data r hr
  rw [scrape_cards_fst] at hr
  rcases List.mem_append.mp hr with h | h
  · exact Or.inl h
  · right
    obtain ⟨card, hcard, hpc⟩ := List.mem_filterMap.mp h
    obtain ⟨t, hft, hrec⟩ := Option.map_eq_some'.mp hpc
    obtain ⟨hne, sel, hsel, el, hok, ht⟩ := findTextLoop_some card price_selectors t hft
    have hF : r.Fiyat = t := by rw [← hrec]; rfl
    exact ⟨hF ▸ hne, card, hcard, sel, hsel, el, hok, hF.trans ht⟩

theorem accumulator_price_invariant_witness :
    demoRec ∈ ([] : List Record) ∨
      (demoRec.Fiyat ≠ "" ∧ ∃ card ∈ [cardWithPrice], ∃ sel ∈ price_selectors, ∃ el,
        card.find sel = Except.ok el ∧ demoRec.Fiyat = pyStrip el.text) := by
  refine accumulator_price_invariant "2024-01-01 00:00:00" [cardWithPrice] [] demoRec ?_
  rw [show (scrape_cards "2024-01-01 00:00:00" [cardWithPrice] []).1 = [demoRec] from rfl]
  exact List.mem_singleton.mpr rfl

/-- C6: the derived price-per-area column is computed (as the rounded
quotient of numeric price by numeric area) exactly when both are
non-null and the area is strictly positive; a null price, a null area,
or the area string `"0"` give null, so the division is never evaluated
with a zero area; price 1,000,000 with area `"100"` gives 10000. -/
theorem fiyat_per_m2_safe :
    (∀ a, fiyat_per_m2 none a = none) ∧
    (∀ p, fiyat_per_m2 p none = none) ∧
    (∀ p, fiyat_per_m2 p (to_numeric (some "0")) = none) ∧
    (∀ p a : ℚ, 0 < a → fiyat_per_m2 (some p) (some a) = some (pyRound2 (p / a))) ∧
    (∀ (p a q : ℚ), fiyat_per_m2 (some p) (some a) = some q → 0 < a) ∧
    (∀ r : Record, (addDerived r).Fiyat_Per_m2 =
      fiyat_per_m2 r.Fiyat_Sayisal (to_numeric r.Brut_Alan_m2)) ∧
    fiyat_per_m2 (some 1000000) (to_numeric (some "100")) = some 10000 := by
  refine ⟨?_, ?_, ?_, ?_, ?_, fun r => rfl, by decide⟩
  · intro a
    rcases a with _ | a <;> rfl
  · intro p
    rcases p with _ | p <;> rfl
  · intro p
    rcases p with _ | p
    · rfl
    · have h0 : to_numeric (some "0") = some 0 := by decide
      rw [h0]
      simp [fiyat_per_m2]
  · intro p a hpos
    simp [fiyat_per_m2, if_pos hpos, ratDiv_eq_div]
  · intro p a q h
    by_cases hpos : 0 < a
    · exact hpos
    · rw [show fiyat_per_m2 (some p) (some a) = none by simp [fiyat_per_m2, hpos]] at h
      exact Option.noConfusion h

theorem fiyat_per_m2_safe_witness :
    fiyat_per_m2 (some 1000000) (some 100) = some (pyRound2 (1000000 / 100)) :=
  fiyat_per_m2_safe.2.2.2.1 1000000 100 (by norm_num)

theorem filter_not_mem_cons {α κ : Type} [DecidableEq κ] (key : α → κ) (k : κ)
    (seen : List κ) (rs : List α) :
    (rs.filter fun x => !decide (key x ∈ k :: seen)) =
      ((rs.filter fun x => !decide (key x ∈ seen)).filter fun x => !decide (key x = k)) := by
  induction rs with
  | nil => rfl
  | cons a rs ih =>
    by_cases h1 : key a = k
    · by_cases h2 : k ∈ seen <;>
        simp [List.filter_cons, h1, h2, List.mem_cons, ih]
    · by_cases h2 : key a ∈ seen <;>
        simp [List.filter_cons, h1, h2, List.mem_cons, ih]

theorem keepFirstOccurrences_cons {α κ : Type} [DecidableEq κ] (key : α → κ)
    (r : α) (rs : List α) :
    keepFirstOccurrences key (r :: rs) =
      r :: keepFirstOccurrences key (rs.filter fun x => !decide (key x = key r)) := by
  simp [keepFirstOccurrences]

theorem dropDupAux_eq_keepFirst {α κ : Type} [DecidableEq κ] (key : α → κ) :
    ∀ (l : List α) (seen : List κ),
      dropDupAux key seen l =
        keepFirstOccurrences key (l.filter fun x => !decide (key x ∈ seen)) := by
  intro l
  induction l with
  | nil => intro seen; simp [dropDupAux, keepFirstOccurrences]
  | cons r rs ih =>
    intro seen
    by_cases h : key r ∈ seen
    · rw [dropDupAux, if_pos h, ih seen, List.filter_cons]
      simp [h]
    · rw [dropDupAux, if_neg h, ih (key r :: seen),
        filter_not_mem_cons key (key r) seen rs, List.filter_cons]
      simp [h, keepFirstOccurrences_cons]

/-- C7: function `drop_duplicates` on the `(Fiyat, Konum, Oda_Sayisi)` key is
first-occurrence keeping: it equals the function that keeps each row and
deletes every later row with the same key, so of two rows agreeing on
those three fields only the earlier survives; and the final output
`run_rows` is exactly this deduplication of the derived rows. -/
theorem dedup_keeps_first :
    (∀ l : List OutRow, drop_duplicates outKey l = keepFirstOccurrences outKey l) ∧
    (∀ a b : OutRow, outKey a = outKey b → drop_duplicates outKey [a, b] = [a]) ∧
    (∀ data : List Record,
      run_rows data = keepFirstOccurrences outKey (data.map addDerived)) := by
  have main : ∀ l : List OutRow,
      drop_duplicates outKey l = keepFirstOccurrences outKey l := by
    intro l
    rw [drop_duplicates, dropDupAux_eq_keepFirst]
    congr 1
    simp
  refine ⟨main, ?_, ?_⟩
  · intro a b hk
    rw [drop_duplicates, dropDupAux, if_neg (List.not_mem_nil _), dropDupAux]
    rw [if_pos (by simp [hk]), dropDupAux]
  · intro data
    rw [run_rows, main]

theorem dedup_keeps_first_witness : drop_duplicates outKey [rowA, rowB] = [rowA] :=
  dedup_keeps_first.2.1 rowA rowB rfl

/-- C8 counterexample: the claim says interruption and fatal errors exit
with a non-zero code, but both `except` handlers swallow the exception
and the script has no `sys.exit`, so the process exits 0: after an
interrupt with one accumulated record the partial file is written yet
the exit code is 0, and after a fatal error the trace is printed yet the
exit code is 0. -/
theorem exit_code_cex :
    (main_result (RunOutcome.interrupted [rec0])).exitCode = 0 ∧
    (main_result (RunOutcome.interrupted [rec0])).interruptedRows = some [rec0] ∧
    (main_result (RunOutcome.fatal "boom")).exitCode = 0 ∧
    (main_result (RunOutcome.fatal "boom")).printedTrace = true :=
  ⟨rfl, rfl, rfl, rfl⟩

/-- C8 amended: normal completion writes the deduplicated output rows
(when at least one record was collected) and exits 0; interruption
writes the raw accumulated records to the distinct partial-output file
(when non-empty) and also exits 0, because the handler swallows the
interrupt; a fatal error prints a diagnostic trace and also exits 0. -/
theorem main_result_amended :
    (∀ data, (main_result (RunOutcome.normal data)).exitCode = 0 ∧
      (main_result (RunOutcome.normal data)).outputRows =
        (if data.isEmpty then none else some (run_rows data)) ∧
      (main_result (RunOutcome.normal data)).interruptedRows = none ∧
      (main_result (RunOutcome.normal data)).printedTrace = false) ∧
    (∀ data, (main_result (RunOutcome.interrupted data)).exitCode = 0 ∧
      (main_result (RunOutcome.interrupted data)).outputRows = none ∧
      (main_result (RunOutcome.interrupted data)).interruptedRows =
        (if data.isEmpty then none else some data)) ∧
    (∀ msg, (main_result (RunOutcome.fatal msg)).exitCode = 0 ∧
      (main_result (RunOutcome.fatal msg)).outputRows = none ∧
      (main_result (RunOutcome.fatal msg)).printedTrace = true) :=
  ⟨fun _ => ⟨rfl, rfl, rfl, rfl⟩, fun _ => ⟨rfl, rfl, rfl⟩, fun _ => ⟨rfl, rfl, rfl⟩⟩
